import Mathlib

/-!
Verification development for the Verge front-page scraper (src/scraper.js).

The JavaScript source is shallowly embedded: strings are modelled as lists of
characters (type `Str`), the mutable `VergeScraper` instance as an explicit
state record, the CSV file as the string its write operations produce, and the
sqlite table as a list of rows.  All definitions are executable and structural,
so concrete runs can be evaluated by `decide`.
-/

/-- JavaScript strings are modelled as lists of characters. -/
abbrev Str := List Char

/-! ## Generic JavaScript string primitives used by scraper.js -/

/-- Whitespace recognised by JavaScript `String.prototype.trim` restricted to
the ASCII range occurring in this development (space, tab, newline, carriage
return, vertical tab, form feed). -/
def isJsSpace (c : Char) : Bool :=
  c = ' ' || c = '\t' || c = '\n' || c = '\r' || c = '\x0b' || c = '\x0c'

/-- Drop leading JS whitespace. -/
def trimL (s : Str) : Str := s.dropWhile isJsSpace

/-- Drop trailing JS whitespace. -/
def trimR (s : Str) : Str := (trimL s.reverse).reverse

/-- Model of JavaScript `s.trim()`. -/
def jsTrim (s : Str) : Str := trimR (trimL s)

/-- Model of JavaScript `s.split(sep)` for a one-character separator
(the source only splits on `"\n"` and `"|"`).  `split` of the empty string
yields `[""]`, matching JS. -/
def splitCh (c : Char) : Str → List Str
  | [] => [[]]
  | x :: xs =>
    let r := splitCh c xs
    if x = c then [] :: r else (x :: r.headD []) :: r.tail

/-- Model of JavaScript `Array.prototype.findIndex`, with the `-1` result
mapped to `none` (the way `getMonthIndex` consumes it). -/
def jsFindIndex (p : α → Bool) : List α → Option Nat
  | [] => none
  | a :: l => if p a then some 0 else (jsFindIndex p l).map (· + 1)

/-- Model of JavaScript `s.toLowerCase()` on the ASCII range. -/
def jsToLower (s : Str) : Str := s.map Char.toLower

/-! ## Decimal rendering of numbers (JS template-literal `${n}`) -/

/-- The ten decimal digit characters. -/
def digitChar : Nat → Char
  | 0 => '0' | 1 => '1' | 2 => '2' | 3 => '3' | 4 => '4'
  | 5 => '5' | 6 => '6' | 7 => '7' | 8 => '8' | _ => '9'

/-- Fuel-indexed digit accumulator; `fuel > n` always suffices. -/
def ntcAux : Nat → Nat → Str → Str
  | 0, _, acc => acc
  | fuel + 1, n, acc =>
    if n < 10 then digitChar n :: acc
    else ntcAux fuel (n / 10) (digitChar (n % 10) :: acc)

/-- Decimal rendering of a natural number, as JS `${n}` produces it. -/
def natToChars (n : Nat) : Str := ntcAux (n + 1) n []

/-- Decimal rendering of an integer, as JS `${n}` produces it. -/
def intToChars (i : Int) : Str :=
  if i < 0 then '-' :: natToChars i.natAbs else natToChars i.toNat

/-- Numeric value of a decimal digit character. -/
def charDigitVal (c : Char) : Nat := c.toNat - 48

/-- Value of a string of decimal digits. -/
def valNat (s : Str) : Nat := s.foldl (fun a c => 10 * a + charDigitVal c) 0

/-- Hexadecimal digit test, as used by `parseInt` radix-16 auto-detection. -/
def isHexDigitCh (c : Char) : Bool :=
  c.isDigit || ('a' ≤ c && c ≤ 'f') || ('A' ≤ c && c ≤ 'F')

/-- Numeric value of a hexadecimal digit character. -/
def charHexVal (c : Char) : Nat :=
  if c.isDigit then c.toNat - 48
  else if 'a' ≤ c && c ≤ 'f' then c.toNat - 87
  else c.toNat - 55

/-- Value of a string of hexadecimal digits. -/
def valHex (s : Str) : Nat := s.foldl (fun a c => 16 * a + charHexVal c) 0

/-- Magnitude part of JavaScript `parseInt`: an optional `0x`/`0X` prefix
switches to hexadecimal, otherwise the maximal leading run of decimal digits
is taken; no digit at all gives `NaN` (modelled as `none`). -/
def parseNatPart : Str → Option Nat
  | '0' :: c :: rest =>
    if c = 'x' || c = 'X' then
      let h := rest.takeWhile isHexDigitCh
      if h = [] then none else some (valHex h)
    else some (valNat (('0' :: c :: rest).takeWhile Char.isDigit))
  | r => if (r.headD ' ').isDigit then some (valNat (r.takeWhile Char.isDigit)) else none

/-- Model of JavaScript `parseInt(s)`: trims leading whitespace, consumes an
optional sign, then the numeric magnitude; `NaN` is modelled as `none`.
(Number-precision loss on astronomically long digit runs is not modelled.) -/
def jsParseInt (s : Str) : Option Int :=
  match s.dropWhile isJsSpace with
  | '-' :: r => (parseNatPart r).map (fun n => -(n : Int))
  | '+' :: r => (parseNatPart r).map (fun n => (n : Int))
  | r => (parseNatPart r).map (fun n => (n : Int))

/-! ## Date helpers from scraper.js -/

/-- The month-name table of `getMonthIndex` (scraper.js line 12). -/
def monthNames : List Str :=
  ["jan".data, "feb".data, "mar".data, "apr".data, "may".data, "jun".data,
   "jul".data, "aug".data, "sep".data, "oct".data, "nov".data, "dec".data]

/-- scraper.js `getMonthIndex` (lines 11-15): compare each table entry,
lower-cased, with the first three characters of the lower-cased input;
`findIndex` misses become `undefined`, modelled as `none`. -/
def getMonthIndex (month : Str) : Option Nat :=
  jsFindIndex (fun m => jsToLower m == (jsToLower month).take 3) monthNames

/-- scraper.js `getDate` (lines 18-21): the first maximal run of decimal
digits (regex `\d+`), or `undefined` (`none`) when there is none. -/
def getDate : Str → Option Str
  | [] => none
  | c :: cs => if c.isDigit then some (c :: cs.takeWhile Char.isDigit) else getDate cs

/-- Proleptic-Gregorian leap-year rule used by the JS `Date` object. -/
def isLeapYear (y : Int) : Bool :=
  y % 4 == 0 && (y % 100 != 0 || y % 400 == 0)

/-- Days in month `m` (0-based, as JS `Date` months) of year `y`.
The catch-all is unreachable for `m ≤ 11`. -/
def daysInMonth (y : Int) : Nat → Nat
  | 0 => 31
  | 1 => if isLeapYear y then 29 else 28
  | 2 => 31 | 3 => 30 | 4 => 31 | 5 => 30 | 6 => 31
  | 7 => 31 | 8 => 30 | 9 => 31 | 10 => 30 | _ => 31

/-- Calendar normalisation performed by `new Date(y, m, d)` for month index
`m ≤ 11` and day argument `d ≥ 0` (the only shapes scraper.js produces):
day `0` rolls back to the last day of the previous month, a day beyond the
month length rolls forward month by month.  Fuel `d + 1` always suffices
because each forward step removes at least 28 days. -/
def normDateAux : Nat → Int → Nat → Nat → Int × Nat × Nat
  | 0, y, m, d => (y, m, d)
  | fuel + 1, y, m, d =>
    if d = 0 then
      if m = 0 then (y - 1, 11, 31) else (y, m - 1, daysInMonth y (m - 1))
    else if d ≤ daysInMonth y m then (y, m, d)
    else
      normDateAux fuel (if m = 11 then y + 1 else y) (if m = 11 then 0 else m + 1)
        (d - daysInMonth y m)

/-- Field extraction of `new Date(y, m, d)`: the `(getFullYear, getMonth,
getDate)` triple after calendar normalisation. -/
def normDate (y : Int) (m d : Nat) : Int × Nat × Nat := normDateAux (d + 1) y m d

/-- The `${getFullYear}/${getMonth + 1}/${getDate}` rendering of
scraper.js line 28 (the `+ 1` is applied by the caller). -/
def renderDate (y : Int) (m d : Nat) : Str :=
  intToChars y ++ "/".data ++ natToChars m ++ "/".data ++ natToChars d

/-- What line 28 renders for an Invalid Date: every field is `NaN`. -/
def nanDate : Str := "NaN/NaN/NaN".data

/-- scraper.js `dateFormatConversion` (lines 24-30): build
`new Date(currentYear, getMonthIndex(input), parseInt(getDate(input)))` and
render it.  An undefined month index or day yields an Invalid Date, rendered
as `NaN/NaN/NaN`.  The current year is taken as the explicit parameter `y`
(the code reads it from the clock).  The `Date` range cutoff at about
±273 000 years is not modelled. -/
def dateFormatConversion (input : Str) (y : Int) : Str :=
  match getMonthIndex input, getDate input with
  | some m, some ds =>
    match jsParseInt ds with
    | some d =>
      let t := normDate y m d.toNat
      renderDate t.1 (t.2.1 + 1) t.2.2
    | none => nanDate
  | _, _ => nanDate

/-! ## The VergeScraper class and its two sinks -/

/-- The mutable instance state of `class VergeScraper` (scraper.js lines
36-44): four parallel arrays filled by `scrape` and the line counter `id`. -/
structure ScraperState where
  headlines : List Str
  authors : List Str
  dates : List Str
  urls : List Str
  id : Nat
deriving DecidableEq

/-- The `constructor` (lines 37-44): empty arrays, counter `0`. -/
def newScraper : ScraperState := ⟨[], [], [], [], 0⟩

/-- The literal CSV header written by `saveToCsv` (line 92), trailing
newline included. -/
def csvHeader : Str := "id | URL | headline | author | date\n".data

/-- The header without its newline, as `runTests` compares it (line 161). -/
def csvHeaderLine : Str := "id | URL | headline | author | date".data

/-- `fs.promises.writeFile`: truncate the file and write `content`. -/
def jsWriteFile (_old content : Str) : Str := content

/-- `fs.promises.appendFile`: append `content` to the file. -/
def jsAppendFile (old content : Str) : Str := old ++ content

/-- One data line of `saveToCsv` without its trailing newline
(line 105): back-tick template with the headline in double quotes. -/
def csvLineBody (id : Nat) (u h a d : Str) : Str :=
  natToChars id ++ " | ".data ++ u ++ " | \"".data ++ h ++ "\" | ".data ++
    a ++ " | ".data ++ d

/-- One full data line of `saveToCsv`, newline included. -/
def csvLine (id : Nat) (u h a d : Str) : Str := csvLineBody id u h a d ++ "\n".data

/-- scraper.js `saveToCsv` (lines 90-108) acting on the file contents `fs`:
write the header (truncating the file), then loop over the headlines,
incrementing `this.id` once per line and appending
`id | url | "headline" | author | normalizedDate`.  Out-of-range array reads
(impossible for scraped batches, whose four arrays have equal length) would be
the JS `undefined`; that value is modelled by the `getD` defaults.  Returns
the final file contents and the updated instance state. -/
def saveToCsv (y : Int) (s : ScraperState) (fs : Str) : Str × ScraperState :=
  let n := s.headlines.length
  let fs₁ := jsWriteFile fs csvHeader
  let fs₂ := (List.range n).foldl
    (fun f i =>
      jsAppendFile f
        (csvLine (s.id + i + 1) (s.urls.getD i ("undefined".data))
          (s.headlines.getD i ("undefined".data)) (s.authors.getD i ("undefined".data))
          (dateFormatConversion (s.dates.getD i ("undefined".data)) y)))
    fs₁
  (fs₂, { s with id := s.id + n })

/-- The list of data lines `saveToCsv` appends after the header. -/
def csvDataLines (y : Int) (s : ScraperState) : List Str :=
  (List.range s.headlines.length).map fun i =>
    csvLine (s.id + i + 1) (s.urls.getD i ("undefined".data))
      (s.headlines.getD i ("undefined".data)) (s.authors.getD i ("undefined".data))
      (dateFormatConversion (s.dates.getD i ("undefined".data)) y)

/-- One row of the sqlite `articles` table (the `INTEGER PRIMARY KEY` id is
the row position and is left implicit). -/
structure DbRow where
  url : Str
  headline : Str
  author : Str
  date : Str
deriving DecidableEq

/-- scraper.js `saveToDatabase` (lines 110-139): after `CREATE TABLE IF NOT
EXISTS`, run one plain `INSERT INTO articles (url, headline, author, date)`
per record, in record order, binding the RAW date string `this.dates[i]`.
No uniqueness constraint exists, so every insert appends a row. -/
def saveToDatabase (s : ScraperState) (table : List DbRow) : List DbRow :=
  table ++ (List.range s.headlines.length).map fun i =>
    { url := s.urls.getD i []
      headline := s.headlines.getD i []
      author := s.authors.getD i []
      date := s.dates.getD i [] }

/-! ## The verification pass of runTests (lines 157-228) -/

/-- One console message of the verification pass, tagged with the data it
reports (`fieldCount i` carries the `csvLines` index `i` of the offending
line, as do the other per-line reports). -/
inductive Report where
  | headerMismatch
  | fieldCount (line : Nat)
  | invalidId (line : Nat)
  | invalidUrl (line : Nat)
  | emptyHeadline (line : Nat)
  | emptyAuthor (line : Nat)
  | emptyDate (line : Nat)
  | countMismatch (count expected : Nat)
  | allPassed
deriving DecidableEq

/-- The field list the checker derives from CSV line `j`:
`csvLines[j].trim().split("|").map(trim)` (lines 166-170). -/
def lineFields (content : Str) (j : Nat) : List Str :=
  (splitCh '|' (jsTrim ((splitCh '\n' content).getD j []))).map jsTrim

/-- The per-line checks of `runTests` (lines 166-204): a wrong field count
makes the loop `continue`, skipping the five field checks of that line;
otherwise each of the five checks reports independently. -/
def checkLine (i : Nat) (line : Str) : List Report :=
  let fields := (splitCh '|' (jsTrim line)).map jsTrim
  if fields.length ≠ 5 then [.fieldCount i]
  else
    (if (jsParseInt (fields.getD 0 [])).isNone then [.invalidId i] else []) ++
    (if ¬ ("http".data).isPrefixOf (fields.getD 1 []) then [.invalidUrl i] else []) ++
    (if fields.getD 2 [] = [] then [.emptyHeadline i] else []) ++
    (if fields.getD 3 [] = [] then [.emptyAuthor i] else []) ++
    (if fields.getD 4 [] = [] then [.emptyDate i] else [])

/-- The verification pass of `runTests` (lines 157-228) as the list of
console messages it emits: a header mismatch returns immediately (lines
161-164); otherwise the loop checks `csvLines[1]` through
`csvLines[csvLines.length - 2]`, then the row count of the `articles` table
is compared with the batch size. -/
def runVerification (content : Str) (dbCount batchSize : Nat) : List Report :=
  let lines := splitCh '\n' content
  if jsTrim (lines.getD 0 []) ≠ csvHeaderLine then [.headerMismatch]
  else
    ((List.range (lines.length - 1 - 1)).map
        (fun k => checkLine (k + 1) (lines.getD (k + 1) []))).flatten ++
      (if dbCount ≠ batchSize then [.countMismatch dbCount batchSize] else [.allPassed])

/-- The read-back of the CSV file implied by the checker: drop the header
line and the empty fragment after the final newline, and split each
remaining line into trimmed fields. -/
def parseCsv (content : Str) : List (List Str) :=
  (((splitCh '\n' content).drop 1).dropLast).map fun l =>
    (splitCh '|' (jsTrim l)).map jsTrim

/-- A sample file for exercising the checker: a correct header followed by
one data line whose url field fails the http check. -/
def sampleCheckerContent : Str :=
  ("id | URL | headline | author | date\n1 | zzz | \"h\" | a | 2024/1/5\n").data

/-! ## Lemmas about decimal rendering -/

lemma charDigitVal_digitChar {d : Nat} (h : d < 10) : charDigitVal (digitChar d) = d := by
  interval_cases d <;> decide

lemma digitChar_mem {d : Nat} (h : d < 10) : digitChar d ∈ ("0123456789").data := by
  interval_cases d <;> decide

lemma ntcAux_acc (fuel : Nat) : ∀ n acc, ntcAux fuel n acc = ntcAux fuel n [] ++ acc := by
  induction fuel with
  | zero => intro n acc; simp [ntcAux]
  | succ fuel ih =>
    intro n acc
    by_cases h : n < 10
    · simp [ntcAux, h]
    · simp only [ntcAux, if_neg h]
      rw [ih (n / 10) (digitChar (n % 10) :: acc), ih (n / 10) [digitChar (n % 10)]]
      simp

lemma ntcAux_fuel (n : Nat) : ∀ fuel fuel' acc, n < fuel → n < fuel' →
    ntcAux fuel n acc = ntcAux fuel' n acc := by
  induction n using Nat.strong_induction_on with
  | _ n ih =>
    intro fuel fuel' acc h h'
    obtain ⟨f, rfl⟩ : ∃ f, fuel = f + 1 := ⟨fuel - 1, by omega⟩
    obtain ⟨f', rfl⟩ : ∃ g, fuel' = g + 1 := ⟨fuel' - 1, by omega⟩
    by_cases hn : n < 10
    · simp [ntcAux, hn]
    · have hdiv : n / 10 < n := Nat.div_lt_self (by omega) (by omega)
      simp only [ntcAux, if_neg hn]
      exact ih (n / 10) hdiv f f' _ (by omega) (by omega)

lemma natToChars_lt {n : Nat} (h : n < 10) : natToChars n = [digitChar n] := by
  simp [natToChars, ntcAux, h]

lemma natToChars_ge {n : Nat} (h : 10 ≤ n) :
    natToChars n = natToChars (n / 10) ++ [digitChar (n % 10)] := by
  have hdiv : n / 10 < n := Nat.div_lt_self (by omega) (by omega)
  show ntcAux (n + 1) n [] = _
  simp only [ntcAux, if_neg (by omega : ¬ n < 10)]
  rw [ntcAux_acc, ntcAux_fuel (n / 10) n (n / 10 + 1) [] (by omega) (by omega)]
  rfl

lemma natToChars_ne_nil (n : Nat) : natToChars n ≠ [] := by
  by_cases h : n < 10
  · simp [natToChars_lt h]
  · simp [natToChars_ge (by omega : 10 ≤ n)]

lemma natToChars_mem {c : Char} {n : Nat} (h : c ∈ natToChars n) :
    c ∈ ("0123456789").data := by
  induction n using Nat.strong_induction_on with
  | _ n ih =>
    by_cases hn : n < 10
    · rw [natToChars_lt hn] at h
      simp only [List.mem_singleton] at h
      exact h ▸ digitChar_mem hn
    · have hdiv : n / 10 < n := Nat.div_lt_self (by omega) (by omega)
      rw [natToChars_ge (by omega : 10 ≤ n)] at h
      rcases List.mem_append.mp h with h1 | h1
      · exact ih (n / 10) hdiv h1
      · simp only [List.mem_singleton] at h1
        exact h1 ▸ digitChar_mem (Nat.mod_lt n (by omega))

/-- Character-class facts about decimal digits, as needed for trimming and
splitting: digits are digits, are not JS whitespace, and are neither the
pipe separator nor a newline. -/
lemma digit_class {c : Char} (h : c ∈ ("0123456789").data) :
    c.isDigit = true ∧ isJsSpace c = false ∧ c ≠ '|' ∧ c ≠ '\n' := by
  simp only [List.mem_cons, List.not_mem_nil, or_false] at h
  rcases h with rfl | rfl | rfl | rfl | rfl | rfl | rfl | rfl | rfl | rfl <;> decide

lemma natToChars_isDigit {c : Char} {n : Nat} (h : c ∈ natToChars n) : c.isDigit = true :=
  (digit_class (natToChars_mem h)).1

lemma valFrom_natToChars (n : Nat) : ∀ a : Nat,
    (natToChars n).foldl (fun a c => 10 * a + charDigitVal c) a =
      a * 10 ^ (natToChars n).length + n := by
  induction n using Nat.strong_induction_on with
  | _ n ih =>
    intro a
    by_cases hn : n < 10
    · simp [natToChars_lt hn, charDigitVal_digitChar hn]; ring
    · have hdiv : n / 10 < n := Nat.div_lt_self (by omega) (by omega)
      rw [natToChars_ge (by omega : 10 ≤ n)]
      rw [List.foldl_append, List.length_append]
      simp only [List.foldl_cons, List.foldl_nil, List.length_singleton]
      rw [ih (n / 10) hdiv a, charDigitVal_digitChar (Nat.mod_lt n (by omega))]
      have : 10 * (a * 10 ^ (natToChars (n / 10)).length + n / 10) + n % 10 =
          a * (10 ^ (natToChars (n / 10)).length * 10) + (10 * (n / 10) + n % 10) := by ring
      rw [this, Nat.div_add_mod, ← pow_succ]

lemma valNat_natToChars (n : Nat) : valNat (natToChars n) = n := by
  have := valFrom_natToChars n 0
  simpa [valNat] using this

lemma natToChars_inj {m n : Nat} (h : natToChars m = natToChars n) : m = n := by
  have := valNat_natToChars m
  rw [h, valNat_natToChars] at this
  omega

lemma headD_append_left {l₁ l₂ : List α} {d : α} (h : l₁ ≠ []) :
    (l₁ ++ l₂).headD d = l₁.headD d := by
  cases l₁ with
  | nil => exact absurd rfl h
  | cons x xs => rfl

lemma natToChars_head_ne_zero {n : Nat} (h : 1 ≤ n) : (natToChars n).headD '?' ≠ '0' := by
  induction n using Nat.strong_induction_on with
  | _ n ih =>
    by_cases hn : n < 10
    · rw [natToChars_lt hn]
      interval_cases n <;> decide
    · have hdiv : n / 10 < n := Nat.div_lt_self (by omega) (by omega)
      rw [natToChars_ge (by omega : 10 ≤ n),
        headD_append_left (natToChars_ne_nil (n / 10))]
      exact ih (n / 10) hdiv (by omega)

lemma headD_mem {l : List α} {d : α} (h : l ≠ []) : l.headD d ∈ l := by
  cases l with
  | nil => exact absurd rfl h
  | cons x xs => simp

/-! ## Lemmas about parseInt, trim and split -/

lemma natToChars_head_digit (n : Nat) : ((natToChars n).headD ' ').isDigit = true :=
  natToChars_isDigit (headD_mem (natToChars_ne_nil n))

lemma natToChars_not_space {c : Char} {n : Nat} (h : c ∈ natToChars n) :
    isJsSpace c = false :=
  (digit_class (natToChars_mem h)).2.1

lemma trimL_natToChars (n : Nat) : trimL (natToChars n) = natToChars n := by
  obtain ⟨c, t, hct⟩ : ∃ c t, natToChars n = c :: t := by
    cases h : natToChars n with
    | nil => exact absurd h (natToChars_ne_nil n)
    | cons c t => exact ⟨c, t, rfl⟩
  have hc : isJsSpace c = false := natToChars_not_space (by rw [hct]; simp)
  rw [trimL, hct, List.dropWhile_cons_of_neg (by simp [hc])]

/-- `parseInt` applied to the decimal rendering of a natural number recovers
that number. -/
lemma jsParseInt_natToChars (n : Nat) : jsParseInt (natToChars n) = some (n : Int) := by
  by_cases h0 : n = 0
  · subst h0; decide
  have hdrop : (natToChars n).dropWhile isJsSpace = natToChars n := trimL_natToChars n
  unfold jsParseInt
  split
  · rename_i r heq
    rw [hdrop] at heq
    have : ('-' : Char).isDigit = true := by
      have := natToChars_isDigit (n := n) (c := '-') (by rw [heq]; simp)
      exact this
    exact absurd this (by decide)
  · rename_i r heq
    rw [hdrop] at heq
    have : ('+' : Char).isDigit = true := by
      have := natToChars_isDigit (n := n) (c := '+') (by rw [heq]; simp)
      exact this
    exact absurd this (by decide)
  · rename_i r hne1 hne2
    rw [hdrop]
    unfold parseNatPart
    split
    · rename_i c rest heq
      have : (natToChars n).headD '?' = '0' := by rw [heq]; rfl
      exact absurd this (natToChars_head_ne_zero (by omega))
    · rename_i hshape
      rw [if_pos (natToChars_head_digit n),
        List.takeWhile_eq_self_iff.mpr (fun c hc => natToChars_isDigit hc),
        valNat_natToChars]
      simp

lemma trimL_eq_self {l : Str} (h : isJsSpace (l.headD '!') = false) : trimL l = l := by
  cases l with
  | nil => rfl
  | cons x xs =>
    simp only [List.headD_cons] at h
    rw [trimL, List.dropWhile_cons_of_neg (by simp [h])]

lemma trimR_eq_self {l : Str} (h : isJsSpace (l.reverse.headD '!') = false) : trimR l = l := by
  rw [trimR, trimL_eq_self h, List.reverse_reverse]

lemma jsTrim_eq_self {l : Str} (h1 : isJsSpace (l.headD '!') = false)
    (h2 : isJsSpace (l.reverse.headD '!') = false) : jsTrim l = l := by
  rw [jsTrim, trimL_eq_self h1, trimR_eq_self h2]

lemma trimL_cons_space (x : Str) : trimL (' ' :: x) = trimL x := by
  rw [trimL, List.dropWhile_cons_of_pos (by decide)]; rfl

lemma trimR_append_space (x : Str) : trimR (x ++ [' ']) = trimR x := by
  rw [trimR, List.reverse_append, List.reverse_singleton, List.singleton_append,
    trimL_cons_space, ← trimR]

lemma jsTrim_cons_space (x : Str) : jsTrim (' ' :: x) = jsTrim x := by
  rw [jsTrim, trimL_cons_space, ← jsTrim]

lemma jsTrim_append_space (x : Str) : jsTrim (x ++ [' ']) = jsTrim x := by
  rw [jsTrim, jsTrim]
  rcases h : trimL x with _ | ⟨c, t⟩
  · have h' : List.dropWhile isJsSpace x = [] := h
    have he : trimL (x ++ [' ']) = [] := by
      rw [trimL, List.dropWhile_append, h']; rfl
    rw [he]
  · have h' : List.dropWhile isJsSpace x = c :: t := h
    have he : trimL (x ++ [' ']) = (c :: t) ++ [' '] := by
      rw [trimL, List.dropWhile_append, h']; rfl
    rw [he, trimR_append_space]

/-- Trimming a field padded with the separating spaces of the CSV format. -/
lemma jsTrim_space_wrap (x : Str) : jsTrim (' ' :: (x ++ [' '])) = jsTrim x := by
  rw [jsTrim_cons_space, jsTrim_append_space]

/-! Lemmas about `splitCh`. -/

lemma splitCh_not_mem {c : Char} {l : Str} (h : c ∉ l) : splitCh c l = [l] := by
  induction l with
  | nil => rfl
  | cons x xs ih =>
    have hx : ¬ x = c := fun hxc => h (hxc ▸ List.mem_cons_self x xs)
    have hxs : c ∉ xs := fun hc => h (List.mem_cons_of_mem x hc)
    simp only [splitCh, if_neg hx, ih hxs]
    rfl

lemma splitCh_append {c : Char} (l₁ : Str) {l₂ : Str} (h : c ∉ l₁) :
    splitCh c (l₁ ++ c :: l₂) = l₁ :: splitCh c l₂ := by
  induction l₁ with
  | nil => simp [splitCh]
  | cons x xs ih =>
    have hx : ¬ x = c := fun hxc => h (hxc ▸ List.mem_cons_self x xs)
    have hxs : c ∉ xs := fun hc => h (List.mem_cons_of_mem x hc)
    simp only [List.cons_append, splitCh, if_neg hx, List.append_eq, ih hxs]
    rfl

/-- Splitting a concatenation of newline-terminated lines on the newline
character recovers the lines plus the empty fragment after the final
newline. -/
lemma splitCh_newline_flatten {ls : List Str} (h : ∀ l ∈ ls, '\n' ∉ l) :
    splitCh '\n' ((ls.map (fun l => l ++ ['\n'])).flatten) = ls ++ [[]] := by
  induction ls with
  | nil => rfl
  | cons l ls ih =>
    have : ((l :: ls).map (fun l => l ++ ['\n'])).flatten =
        l ++ '\n' :: ((ls.map (fun l => l ++ ['\n'])).flatten) := by
      simp
    rw [this, splitCh_append l (h l (List.mem_cons_self l ls)),
      ih (fun x hx => h x (List.mem_cons_of_mem l hx))]
    rfl

/-! Lemmas about the writer producing header-plus-lines. -/

lemma foldl_append_flatten (g : Nat → Str) (l : List Nat) (init : Str) :
    l.foldl (fun f i => f ++ g i) init = init ++ (l.map g).flatten := by
  induction l generalizing init with
  | nil => simp
  | cons x xs ih => simp [ih, List.append_assoc]

/-- The file contents produced by `saveToCsv`: the header followed by the
data lines, independent of the prior file contents `fs` (the initial
`writeFile` truncates). -/
lemma saveToCsv_content (y : Int) (s : ScraperState) (fs : Str) :
    (saveToCsv y s fs).1 = csvHeader ++ (csvDataLines y s).flatten := by
  unfold saveToCsv csvDataLines jsWriteFile jsAppendFile
  exact foldl_append_flatten _ _ _

lemma saveToCsv_state (y : Int) (s : ScraperState) (fs : Str) :
    (saveToCsv y s fs).2 = { s with id := s.id + s.headlines.length } := rfl

/-! ## Character-class facts about rendered dates -/

lemma intToChars_mem {c : Char} {y : Int} (h : c ∈ intToChars y) :
    c = '-' ∨ c ∈ ("0123456789").data := by
  unfold intToChars at h
  split at h
  · rcases List.mem_cons.mp h with rfl | h1
    · exact Or.inl rfl
    · exact Or.inr (natToChars_mem h1)
  · exact Or.inr (natToChars_mem h)

lemma intToChars_ne_nil (y : Int) : intToChars y ≠ [] := by
  unfold intToChars
  split
  · simp
  · exact natToChars_ne_nil _

lemma renderDate_chars (y : Int) (m d : Nat) :
    renderDate y m d ≠ [] ∧
      ∀ c ∈ renderDate y m d, isJsSpace c = false ∧ c ≠ '|' ∧ c ≠ '\n' := by
  have hslash : ("/").data = ['/'] := rfl
  constructor
  · unfold renderDate
    intro hnil
    simp only [List.append_eq_nil] at hnil
    exact intToChars_ne_nil y hnil.1.1.1.1
  · intro c hc
    unfold renderDate at hc
    simp only [hslash, List.mem_append, List.mem_singleton, or_assoc] at hc
    rcases hc with h1 | rfl | h1 | rfl | h1
    · rcases intToChars_mem h1 with rfl | h2
      · decide
      · exact (digit_class h2).2
    · decide
    · exact (digit_class (natToChars_mem h1)).2
    · decide
    · exact (digit_class (natToChars_mem h1)).2

/-- The output of `dateFormatConversion` is never empty and never contains
whitespace, a pipe or a newline — whether or not the input was parseable. -/
lemma dfc_chars (input : Str) (y : Int) :
    dateFormatConversion input y ≠ [] ∧
      ∀ c ∈ dateFormatConversion input y, isJsSpace c = false ∧ c ≠ '|' ∧ c ≠ '\n' := by
  unfold dateFormatConversion
  split
  · split
    · exact renderDate_chars _ _ _
    · decide
  · decide

/-! ## Parsing one CSV data line back into fields -/

lemma jsTrim_natToChars (n : Nat) : jsTrim (natToChars n) = natToChars n := by
  refine jsTrim_eq_self ?_ ?_
  · exact natToChars_not_space (headD_mem (natToChars_ne_nil n))
  · have hrev : (natToChars n).reverse ≠ [] := by
      simp [natToChars_ne_nil n]
    have : (natToChars n).reverse.headD '!' ∈ natToChars n :=
      List.mem_reverse.mp (headD_mem hrev)
    exact natToChars_not_space this

lemma sep_subset : ∀ c ∈ (" | ").data, c ∈ (" |\"").data := by decide

lemma sepq_subset : ∀ c ∈ (" | \"").data, c ∈ (" |\"").data := by decide

lemma qsep_subset : ∀ c ∈ ("\" | ").data, c ∈ (" |\"").data := by decide

/-- Every character of a CSV line body comes from one of the five fields or
from the separator characters space, pipe, double quote. -/
lemma csvLineBody_mem {c : Char} {id : Nat} {u h a d : Str}
    (hc : c ∈ csvLineBody id u h a d) :
    c ∈ natToChars id ∨ c ∈ u ∨ c ∈ h ∨ c ∈ a ∨ c ∈ d ∨ c ∈ (" |\"").data := by
  unfold csvLineBody at hc
  simp only [List.mem_append, or_assoc] at hc
  rcases hc with h1 | h1 | h1 | h1 | h1 | h1 | h1 | h1 | h1
  · exact Or.inl h1
  · exact Or.inr (Or.inr (Or.inr (Or.inr (Or.inr (sep_subset c h1)))))
  · exact Or.inr (Or.inl h1)
  · exact Or.inr (Or.inr (Or.inr (Or.inr (Or.inr (sepq_subset c h1)))))
  · exact Or.inr (Or.inr (Or.inl h1))
  · exact Or.inr (Or.inr (Or.inr (Or.inr (Or.inr (qsep_subset c h1)))))
  · exact Or.inr (Or.inr (Or.inr (Or.inl h1)))
  · exact Or.inr (Or.inr (Or.inr (Or.inr (Or.inr (sep_subset c h1)))))
  · exact Or.inr (Or.inr (Or.inr (Or.inr (Or.inl h1))))

/-- A CSV line body never contains a newline, provided the three free-text
fields and the date field are newline-free. -/
lemma csvLineBody_no_newline {id : Nat} {u h a d : Str}
    (hu : '\n' ∉ u) (hh : '\n' ∉ h) (ha : '\n' ∉ a) (hd : '\n' ∉ d) :
    '\n' ∉ csvLineBody id u h a d := by
  intro hc
  rcases csvLineBody_mem hc with h1 | h1 | h1 | h1 | h1 | h1
  · exact absurd ((digit_class (natToChars_mem h1)).2.2.2) (by simp)
  · exact hu h1
  · exact hh h1
  · exact ha h1
  · exact hd h1
  · revert h1; decide

lemma jsTrim_eq_self_of_chars {l : Str} (h0 : l ≠ [])
    (h : ∀ c ∈ l, isJsSpace c = false) : jsTrim l = l :=
  jsTrim_eq_self (h _ (headD_mem h0))
    (h _ (List.mem_reverse.mp (headD_mem (by simp [h0]))))

/-- Reading one data line back: trimming the line and splitting it on the
pipe recovers the five fields, with the id field intact, the url and author
fields trimmed, and the headline field still carrying its double quotes. -/
lemma parse_csvLineBody (id : Nat) (u h a d : Str)
    (hu : '|' ∉ u) (hh : '|' ∉ h) (ha : '|' ∉ a)
    (hd0 : d ≠ []) (hd : ∀ c ∈ d, isJsSpace c = false ∧ c ≠ '|' ∧ c ≠ '\n') :
    (splitCh '|' (jsTrim (csvLineBody id u h a d))).map jsTrim =
      [natToChars id, jsTrim u, '"' :: (h ++ ['"']), jsTrim a, d] := by
  have e1 : (" | ").data = [' ', '|', ' '] := rfl
  have e2 : (" | \"").data = [' ', '|', ' ', '"'] := rfl
  have e3 : ("\" | ").data = ['"', ' ', '|', ' '] := rfl
  -- the line body trims to itself: it starts with a digit and ends with the
  -- final character of the rendered date
  have hhead : isJsSpace ((csvLineBody id u h a d).headD '!') = false := by
    have hX : csvLineBody id u h a d =
        natToChars id ++ (" | ".data ++ (u ++ (" | \"".data ++
          (h ++ ("\" | ".data ++ (a ++ (" | ".data ++ d))))))) := by
      simp [csvLineBody, List.append_assoc]
    rw [hX, headD_append_left (natToChars_ne_nil id)]
    exact natToChars_not_space (headD_mem (natToChars_ne_nil id))
  have hlast : isJsSpace ((csvLineBody id u h a d).reverse.headD '!') = false := by
    have hY : csvLineBody id u h a d =
        (natToChars id ++ " | ".data ++ u ++ " | \"".data ++ h ++ "\" | ".data ++
          a ++ " | ".data) ++ d := by
      simp [csvLineBody, List.append_assoc]
    have hdrev : d.reverse ≠ [] := by simp [hd0]
    rw [hY, List.reverse_append, headD_append_left hdrev]
    exact (hd _ (List.mem_reverse.mp (headD_mem hdrev))).1
  rw [jsTrim_eq_self hhead hlast]
  -- regroup the line body around its four pipe characters
  have hgrp : csvLineBody id u h a d =
      (natToChars id ++ [' ']) ++ '|' :: ((' ' :: (u ++ [' '])) ++
        '|' :: ((' ' :: ('"' :: (h ++ ['"']) ++ [' '])) ++
          '|' :: ((' ' :: (a ++ [' '])) ++ '|' :: (' ' :: d)))) := by
    simp [csvLineBody, e1, e2, e3, List.append_assoc]
  have hc0 : '|' ∉ natToChars id ++ [' '] := by
    intro hc
    rcases List.mem_append.mp hc with h1 | h1
    · exact absurd ((digit_class (natToChars_mem h1)).2.2.1) (by simp)
    · revert h1; decide
  have hc1 : '|' ∉ ' ' :: (u ++ [' ']) := by
    intro hc
    rcases List.mem_cons.mp hc with h1 | h1
    · exact absurd h1 (by decide)
    · rcases List.mem_append.mp h1 with h2 | h2
      · exact hu h2
      · revert h2; decide
  have hc2 : '|' ∉ ' ' :: ('"' :: (h ++ ['"']) ++ [' ']) := by
    intro hc
    rcases List.mem_cons.mp hc with h1 | h1
    · exact absurd h1 (by decide)
    · rcases List.mem_append.mp h1 with h2 | h2
      · rcases List.mem_cons.mp h2 with h3 | h3
        · exact absurd h3 (by decide)
        · rcases List.mem_append.mp h3 with h4 | h4
          · exact hh h4
          · revert h4; decide
      · revert h2; decide
  have hc3 : '|' ∉ ' ' :: (a ++ [' ']) := by
    intro hc
    rcases List.mem_cons.mp hc with h1 | h1
    · exact absurd h1 (by decide)
    · rcases List.mem_append.mp h1 with h2 | h2
      · exact ha h2
      · revert h2; decide
  have hc4 : '|' ∉ ' ' :: d := by
    intro hc
    rcases List.mem_cons.mp hc with h1 | h1
    · exact absurd h1 (by decide)
    · exact absurd (hd _ h1).2.1 (by simp)
  rw [hgrp, splitCh_append _ hc0, splitCh_append _ hc1, splitCh_append _ hc2,
    splitCh_append _ hc3, splitCh_not_mem hc4]
  simp only [List.map_cons, List.map_nil]
  rw [jsTrim_append_space, jsTrim_natToChars, jsTrim_space_wrap]
  have hq : jsTrim (' ' :: ('"' :: (h ++ ['"']) ++ [' '])) = '"' :: (h ++ ['"']) := by
    rw [jsTrim_space_wrap]
    refine jsTrim_eq_self (by rw [List.headD_cons]; decide) ?_
    have hassoc : ('"' :: (h ++ ['"'])) = ('"' :: h) ++ ['"'] := by simp
    rw [hassoc, List.reverse_append, List.reverse_singleton,
      headD_append_left (by simp : (['"'] : Str) ≠ [])]
    decide
  rw [hq, jsTrim_space_wrap, jsTrim_cons_space,
    jsTrim_eq_self_of_chars hd0 (fun c hc => (hd c hc).1)]

/-! ## Date-normalisation lemmas and claims -/

lemma normDateAux_stop {fuel : Nat} {y : Int} {m d : Nat} (hf : 1 ≤ fuel)
    (h1 : d ≠ 0) (h2 : d ≤ daysInMonth y m) : normDateAux fuel y m d = (y, m, d) := by
  obtain ⟨f, rfl⟩ : ∃ f, fuel = f + 1 := ⟨fuel - 1, by omega⟩
  simp [normDateAux, h1, h2]

lemma normDate_in_range {y : Int} {m d : Nat} (h1 : 1 ≤ d) (h2 : d ≤ daysInMonth y m) :
    normDate y m d = (y, m, d) :=
  normDateAux_stop (by omega) (by omega) h2

/-- Claim C2: for a recognizable month token and a day within the length of
that month in the reference year, `dateFormatConversion` renders exactly
`referenceYear/month/day` in decimal, with no leading zero on the month or
the day. -/
theorem claim2_normalize_valid_dates (input : Str) (y : Int) (m : Nat) (ds : Str) (d : Nat)
    (hm : getMonthIndex input = some m) (hds : getDate input = some ds)
    (hpi : jsParseInt ds = some (d : Int)) (hd1 : 1 ≤ d) (hd2 : d ≤ daysInMonth y m) :
    dateFormatConversion input y =
      intToChars y ++ ("/").data ++ natToChars (m + 1) ++ ("/").data ++ natToChars d ∧
    (natToChars (m + 1)).headD '?' ≠ '0' ∧ (natToChars d).headD '?' ≠ '0' := by
  refine ⟨?_, natToChars_head_ne_zero (by omega), natToChars_head_ne_zero hd1⟩
  unfold dateFormatConversion
  rw [hm, hds]
  show (match jsParseInt ds with
    | some d =>
      let t := normDate y m d.toNat
      renderDate t.1 (t.2.1 + 1) t.2.2
    | none => nanDate) = _
  rw [hpi]
  simp only [Int.toNat_natCast]
  rw [normDate_in_range hd1 hd2]
  rfl

/-- Witness for C2 at the two examples named by the claim. -/
theorem claim2_witness :
    getMonthIndex ("Mar 14".data) = some 2 ∧ getDate ("Mar 14".data) = some ("14".data) ∧
    jsParseInt ("14".data) = some 14 ∧ 1 ≤ 14 ∧ 14 ≤ daysInMonth 2024 2 ∧
    dateFormatConversion ("Mar 14".data) 2024 = "2024/3/14".data ∧
    dateFormatConversion ("january 1".data) 2025 = "2025/1/1".data := by
  refine ⟨by decide, by decide, by decide, by decide, by decide, ?_, ?_⟩
  · have h := claim2_normalize_valid_dates ("Mar 14".data) 2024 2 ("14".data) 14
      (by decide) (by decide) (by decide) (by decide) (by decide)
    exact h.1.trans (by decide)
  · have h := claim2_normalize_valid_dates ("january 1".data) 2025 0 ("1".data) 1
      (by decide) (by decide) (by decide) (by decide) (by decide)
    exact h.1.trans (by decide)

/-- Claim C3 (amended): on an input without a digit run or without a month
token, `dateFormatConversion` does not raise any error — it returns the
string `NaN/NaN/NaN` produced by rendering an Invalid Date. -/
theorem claim3_malformed_returns_nan (input : Str) (y : Int)
    (h : getMonthIndex input = none ∨ getDate input = none) :
    dateFormatConversion input y = "NaN/NaN/NaN".data := by
  unfold dateFormatConversion
  rcases h with h | h
  · rw [h]
    rcases getDate input with _ | ds <;> rfl
  · rw [h]
    rcases getMonthIndex input with _ | m <;> rfl

/-- Counterexample for C3 as stated: on "no date here" the code does return
a string (the NaN rendering); no `MalformedDateError` exists in the code. -/
theorem claim3_counterexample :
    dateFormatConversion ("no date here".data) 2024 = "NaN/NaN/NaN".data ∧
    getMonthIndex ("no date here".data) = none ∧
    getDate ("no date here".data) = none := by decide

/-- Witness for the amended C3. -/
theorem claim3_witness :
    (getMonthIndex ("no date here".data) = none ∨ getDate ("no date here".data) = none) ∧
    dateFormatConversion ("no date here".data) 2024 = "NaN/NaN/NaN".data :=
  ⟨Or.inl (by decide), claim3_malformed_returns_nan ("no date here".data) 2024 (Or.inl (by decide))⟩

/-- Claim C6 (amended): a day count exceeding the month length does not make
the conversion fail; when the excess fits in the following month the result
is the following month (January of the next year after December) with day
`d - daysInMonth`.  (Larger excesses keep rolling across later months, which
is why the claim as stated is corrected.) -/
theorem claim6_rollover (input : Str) (y : Int) (m : Nat) (ds : Str) (d : Nat)
    (hm : getMonthIndex input = some m) (hds : getDate input = some ds)
    (hpi : jsParseInt ds = some (d : Int))
    (hdim : daysInMonth y m < d)
    (hnext : d - daysInMonth y m ≤
      daysInMonth (if m = 11 then y + 1 else y) (if m = 11 then 0 else m + 1)) :
    dateFormatConversion input y =
      intToChars (if m = 11 then y + 1 else y) ++ ("/").data ++
        natToChars ((if m = 11 then 0 else m + 1) + 1) ++ ("/").data ++
        natToChars (d - daysInMonth y m) := by
  unfold dateFormatConversion
  rw [hm, hds]
  show (match jsParseInt ds with
    | some d =>
      let t := normDate y m d.toNat
      renderDate t.1 (t.2.1 + 1) t.2.2
    | none => nanDate) = _
  rw [hpi]
  simp only [Int.toNat_natCast]
  have hnd : normDate y m d =
      (if m = 11 then y + 1 else y, if m = 11 then 0 else m + 1, d - daysInMonth y m) := by
    show normDateAux (d + 1) y m d = _
    obtain ⟨k, hk⟩ : ∃ k, d = k + 1 := ⟨d - 1, by omega⟩
    simp only [normDateAux, if_neg (by omega : ¬ d = 0),
      if_neg (by omega : ¬ d ≤ daysInMonth y m)]
    exact normDateAux_stop (by omega) (by omega) hnext
  rw [hnd]
  rfl

/-- Counterexample for C6 as stated: for "Jan 99" the excess rolls past the
following month (February) into April, so the output month is not the month
after the matched one. -/
theorem claim6_counterexample :
    dateFormatConversion ("Jan 99".data) 2023 = "2023/4/9".data ∧
    "2023/4/9".data ≠
      intToChars 2023 ++ ("/").data ++ natToChars (1 + 1) ++ ("/").data ++
        natToChars (99 - 31) := by decide

/-- Witness for the amended C6 at the boundary case "Feb 30". -/
theorem claim6_witness :
    getMonthIndex ("Feb 30".data) = some 1 ∧ getDate ("Feb 30".data) = some ("30".data) ∧
    jsParseInt ("30".data) = some 30 ∧ daysInMonth 2023 1 < 30 ∧
    30 - daysInMonth 2023 1 ≤
      daysInMonth (if 1 = 11 then (2023 : Int) + 1 else 2023) (if 1 = 11 then 0 else 1 + 1) ∧
    dateFormatConversion ("Feb 30".data) 2023 = "2023/3/2".data := by
  refine ⟨by decide, by decide, by decide, by decide, by decide, ?_⟩
  have h := claim6_rollover ("Feb 30".data) 2023 1 ("30".data) 30
    (by decide) (by decide) (by decide) (by decide) (by decide)
  exact h.trans (by decide)

/-! ## Persistence claims -/

lemma getD_range_map {α : Type} (f : Nat → α) (d : α) {n i : Nat} (h : i < n) :
    ((List.range n).map f).getD i d = f i := by
  rw [List.getD_eq_getElem?_getD, List.getElem?_map, List.getElem?_range h]
  rfl

lemma getD_append_offset {α : Type} (l₁ l₂ : List α) (d : α) (i : Nat) :
    (l₁ ++ l₂).getD (l₁.length + i) d = l₂.getD i d := by
  rw [List.getD_eq_getElem?_getD, List.getElem?_append_right (by omega)]
  have hsub : l₁.length + i - l₁.length = i := by omega
  rw [hsub, List.getD_eq_getElem?_getD]

/-- Claim C1 (code-bug evaluation): the insert loop of `saveToDatabase` does
not deduplicate by url, although its comment says it does — persisting the
same one-record batch twice leaves the table with two rows carrying the same
url, different from persisting it once. -/
theorem claim1_duplicate_rows :
    saveToDatabase ⟨["A".data], ["Bob".data], ["Jan 5".data], ["https://x/1".data], 0⟩
        (saveToDatabase ⟨["A".data], ["Bob".data], ["Jan 5".data], ["https://x/1".data], 0⟩ []) ≠
      saveToDatabase ⟨["A".data], ["Bob".data], ["Jan 5".data], ["https://x/1".data], 0⟩ [] ∧
    ((saveToDatabase ⟨["A".data], ["Bob".data], ["Jan 5".data], ["https://x/1".data], 0⟩
        (saveToDatabase ⟨["A".data], ["Bob".data], ["Jan 5".data], ["https://x/1".data], 0⟩ [])).filter
      (fun r => r.url == ("https://x/1").data)).length = 2 := by decide

/-- Claim C4 (amended): the table insert stores the raw date while the CSV
line carries the normalized date, and the two diverge for every record whose
raw date is not a fixed point of the normalizer. -/
theorem claim4_sink_divergence (hls als dls uls : List Str) (k : Nat) (t : List DbRow)
    (y : Int) (i : Nat)
    (hla : als.length = hls.length) (hld : dls.length = hls.length)
    (hlu : uls.length = hls.length) (hi : i < hls.length) :
    ((saveToDatabase ⟨hls, als, dls, uls, k⟩ t).getD (t.length + i) ⟨[], [], [], []⟩).date =
      dls.getD i [] ∧
    (csvDataLines y ⟨hls, als, dls, uls, k⟩).getD i [] =
      csvLine (k + i + 1) (uls.getD i []) (hls.getD i []) (als.getD i [])
        (dateFormatConversion (dls.getD i []) y) ∧
    (dateFormatConversion (dls.getD i []) y ≠ dls.getD i [] →
      ((saveToDatabase ⟨hls, als, dls, uls, k⟩ t).getD (t.length + i) ⟨[], [], [], []⟩).date ≠
        dateFormatConversion (dls.getD i []) y) := by
  have hdb : ((saveToDatabase ⟨hls, als, dls, uls, k⟩ t).getD (t.length + i)
      ⟨[], [], [], []⟩).date = dls.getD i [] := by
    unfold saveToDatabase
    rw [getD_append_offset, getD_range_map _ _ hi]
  refine ⟨hdb, ?_, fun hne => by rw [hdb]; exact Ne.symm hne⟩
  unfold csvDataLines
  rw [getD_range_map _ _ hi]
  have hu : uls.getD i ("undefined".data) = uls.getD i [] := by
    rw [List.getD_eq_getElem _ _ (by omega : i < uls.length),
      List.getD_eq_getElem _ _ (by omega : i < uls.length)]
  have hh : hls.getD i ("undefined".data) = hls.getD i [] := by
    rw [List.getD_eq_getElem _ _ (by omega : i < hls.length),
      List.getD_eq_getElem _ _ (by omega : i < hls.length)]
  have ha : als.getD i ("undefined".data) = als.getD i [] := by
    rw [List.getD_eq_getElem _ _ (by omega : i < als.length),
      List.getD_eq_getElem _ _ (by omega : i < als.length)]
  have hd : dls.getD i ("undefined".data) = dls.getD i [] := by
    rw [List.getD_eq_getElem _ _ (by omega : i < dls.length),
      List.getD_eq_getElem _ _ (by omega : i < dls.length)]
  rw [hu, hh, ha, hd]

/-- Counterexample for C4 as stated: on a record whose raw date is the fixed
point "NaN/NaN/NaN" of the normalizer, both sinks hold the same date string,
so the sinks do not diverge for every record. -/
theorem claim4_counterexample :
    ((saveToDatabase ⟨["A".data], ["Bob".data], ["NaN/NaN/NaN".data], ["https://x/1".data], 0⟩
        []).getD 0 ⟨[], [], [], []⟩).date =
      ((parseCsv ((saveToCsv 2024
        ⟨["A".data], ["Bob".data], ["NaN/NaN/NaN".data], ["https://x/1".data], 0⟩ []).1)).getD 0
          []).getD 4 [] := by decide

/-- Witness for the amended C4 on a normal record. -/
theorem claim4_witness :
    (1 < 2 ∨ 0 < 1) ∧
    ((saveToDatabase ⟨["A".data], ["Bob".data], ["Jan 5".data], ["https://x/1".data], 0⟩
        []).getD 0 ⟨[], [], [], []⟩).date = ("Jan 5").data ∧
    dateFormatConversion (("Jan 5").data) 2024 ≠ ("Jan 5").data ∧
    ((saveToDatabase ⟨["A".data], ["Bob".data], ["Jan 5".data], ["https://x/1".data], 0⟩
        []).getD 0 ⟨[], [], [], []⟩).date ≠ dateFormatConversion (("Jan 5").data) 2024 := by
  have h := claim4_sink_divergence ["A".data] ["Bob".data] ["Jan 5".data] ["https://x/1".data]
    0 [] 2024 0 (by decide) (by decide) (by decide) (by decide)
  exact ⟨Or.inr (by decide), h.1, by decide, h.2.2 (by decide)⟩

/-- Claim C5: a fresh write produces exactly the literal header followed by
one line per record in input order, with ids assigned from 1, fields joined
by the literal space-pipe-space separator and only the headline in double
quotes. -/
theorem claim5_fresh_write_format (hls als dls uls : List Str) (y : Int) (fs : Str)
    (_hla : als.length = hls.length) (_hld : dls.length = hls.length)
    (_hlu : uls.length = hls.length) :
    (saveToCsv y ⟨hls, als, dls, uls, 0⟩ fs).1 =
      ("id | URL | headline | author | date\n").data ++
        ((List.range hls.length).map fun i =>
          natToChars (i + 1) ++ (" | ").data ++ uls.getD i ("undefined".data) ++
            (" | \"").data ++ hls.getD i ("undefined".data) ++ ("\" | ").data ++
            als.getD i ("undefined".data) ++ (" | ").data ++
            dateFormatConversion (dls.getD i ("undefined".data)) y ++ ("\n").data).flatten := by
  rw [saveToCsv_content]
  unfold csvHeader csvDataLines csvLine csvLineBody
  simp only [Nat.zero_add]

/-- Witness for C5 on a one-record batch. -/
theorem claim5_witness :
    (["Bob".data] : List Str).length = (["Alpha".data] : List Str).length ∧
    (["Jan 5".data] : List Str).length = (["Alpha".data] : List Str).length ∧
    (["https://x/1".data] : List Str).length = (["Alpha".data] : List Str).length ∧
    (saveToCsv 2024 ⟨["Alpha".data], ["Bob".data], ["Jan 5".data], ["https://x/1".data], 0⟩
        []).1 =
      ("id | URL | headline | author | date\n").data ++
        ((List.range (["Alpha".data] : List Str).length).map fun i =>
          natToChars (i + 1) ++ (" | ").data ++
            (["https://x/1".data] : List Str).getD i ("undefined".data) ++
            (" | \"").data ++ (["Alpha".data] : List Str).getD i ("undefined".data) ++
            ("\" | ").data ++ (["Bob".data] : List Str).getD i ("undefined".data) ++
            (" | ").data ++
            dateFormatConversion ((["Jan 5".data] : List Str).getD i ("undefined".data)) 2024 ++
            ("\n").data).flatten :=
  ⟨rfl, rfl, rfl,
    claim5_fresh_write_format ["Alpha".data] ["Bob".data] ["Jan 5".data] ["https://x/1".data]
      2024 [] rfl rfl rfl⟩

/-! ## Consecutive writes: truncation and the line counter -/

lemma takeWhile_digit_csvLine (id : Nat) (u h a d : Str) :
    (csvLine id u h a d).takeWhile Char.isDigit = natToChars id := by
  have e1 : (" | ").data = [' ', '|', ' '] := rfl
  have hshape : csvLine id u h a d =
      natToChars id ++ (' ' :: ('|' :: (' ' :: (u ++ ((" | \"").data ++ (h ++ (("\" | ").data ++
        (a ++ ((" | ").data ++ (d ++ ("\n").data)))))))))) := by
    simp [csvLine, csvLineBody, e1, List.append_assoc]
  rw [hshape, List.takeWhile_append_of_pos (fun c hc => natToChars_isDigit hc),
    List.takeWhile_cons_of_neg (by decide)]
  simp

/-- Two CSV lines rendered with different ids are different strings: the id
is recoverable as the maximal digit prefix. -/
lemma csvLine_id_inj {id₁ id₂ : Nat} {u₁ h₁ a₁ d₁ u₂ h₂ a₂ d₂ : Str}
    (h : csvLine id₁ u₁ h₁ a₁ d₁ = csvLine id₂ u₂ h₂ a₂ d₂) : id₁ = id₂ := by
  have h2 := congrArg (List.takeWhile Char.isDigit) h
  rw [takeWhile_digit_csvLine, takeWhile_digit_csvLine] at h2
  exact natToChars_inj h2

/-- Claim C7: running `saveToCsv` a second time on the same instance leaves
the file holding exactly one header followed by the second call's data
lines; no data line of the first run survives (the second call's lines all
carry strictly larger ids). -/
theorem claim7_truncate_and_rewrite (s₁ : ScraperState) (y₁ y₂ : Int) (fs₀ : Str) :
    (saveToCsv y₂ (saveToCsv y₁ s₁ fs₀).2 ((saveToCsv y₁ s₁ fs₀).1)).1 =
      csvHeader ++ (csvDataLines y₂ (saveToCsv y₁ s₁ fs₀).2).flatten ∧
    ∀ l ∈ csvDataLines y₁ s₁, l ∉ csvDataLines y₂ (saveToCsv y₁ s₁ fs₀).2 := by
  refine ⟨saveToCsv_content _ _ _, ?_⟩
  intro l hl hl₂
  rw [saveToCsv_state] at hl₂
  unfold csvDataLines at hl hl₂
  obtain ⟨i, hi, hli⟩ := List.mem_map.mp hl
  obtain ⟨j, hj, hlj⟩ := List.mem_map.mp hl₂
  rw [List.mem_range] at hi hj
  rw [← hli] at hlj
  have hid := csvLine_id_inj hlj
  have hid2 : s₁.id + s₁.headlines.length + j + 1 = s₁.id + i + 1 := hid
  have hj2 : j < s₁.headlines.length := hj
  omega

/-- Witness for C7: the single data line of the first run (id 1) is not
among the data lines of the second run (ids starting at 2). -/
theorem claim7_witness :
    csvLine 1 ("https://x/1".data) ("Alpha".data) ("Bob".data)
        (dateFormatConversion ("Jan 5".data) 2024) ∈
      csvDataLines 2024 ⟨["Alpha".data], ["Bob".data], ["Jan 5".data], ["https://x/1".data], 0⟩ ∧
    csvLine 1 ("https://x/1".data) ("Alpha".data) ("Bob".data)
        (dateFormatConversion ("Jan 5".data) 2024) ∉
      csvDataLines 2024
        (saveToCsv 2024 ⟨["Alpha".data], ["Bob".data], ["Jan 5".data], ["https://x/1".data], 0⟩
          []).2 :=
  ⟨by decide,
    (claim7_truncate_and_rewrite
      ⟨["Alpha".data], ["Bob".data], ["Jan 5".data], ["https://x/1".data], 0⟩ 2024 2024 []).2
      _ (by decide)⟩

/-- Claim C10: the id counter starts at 0 in the constructor, ends the first
write at the batch size N, and a second write over record lists of length M
emits lines with ids N+1 through N+M — it never restarts at 1. -/
theorem claim10_id_never_reset (h₁ a₁ d₁ u₁ h₂ a₂ d₂ u₂ : List Str) (y₁ y₂ : Int)
    (fs₁ fs₂ : Str)
    (_hla : a₂.length = h₂.length) (_hld : d₂.length = h₂.length)
    (_hlu : u₂.length = h₂.length) :
    newScraper.id = 0 ∧
    ((saveToCsv y₁ ⟨h₁, a₁, d₁, u₁, 0⟩ fs₁).2).id = h₁.length ∧
    (saveToCsv y₂ { (saveToCsv y₁ ⟨h₁, a₁, d₁, u₁, 0⟩ fs₁).2 with
        headlines := h₂, authors := a₂, dates := d₂, urls := u₂ } fs₂).1 =
      csvHeader ++ ((List.range h₂.length).map fun i =>
        csvLine (h₁.length + i + 1) (u₂.getD i ("undefined".data))
          (h₂.getD i ("undefined".data)) (a₂.getD i ("undefined".data))
          (dateFormatConversion (d₂.getD i ("undefined".data)) y₂)).flatten := by
  refine ⟨rfl, Nat.zero_add _, ?_⟩
  have hs : ({ (saveToCsv y₁ ⟨h₁, a₁, d₁, u₁, 0⟩ fs₁).2 with
      headlines := h₂, authors := a₂, dates := d₂, urls := u₂ } : ScraperState) =
      ⟨h₂, a₂, d₂, u₂, h₁.length⟩ := by
    show ScraperState.mk h₂ a₂ d₂ u₂ (0 + h₁.length) = ScraperState.mk h₂ a₂ d₂ u₂ h₁.length
    rw [Nat.zero_add]
  rw [hs, saveToCsv_content]
  rfl

/-- Witness for C10 with a first batch of size 1 and a second batch of
size 1: the second write's line carries id 2. -/
theorem claim10_witness :
    (["B2".data] : List Str).length = (["H2".data] : List Str).length ∧
    (["D2".data] : List Str).length = (["H2".data] : List Str).length ∧
    (["U2".data] : List Str).length = (["H2".data] : List Str).length ∧
    newScraper.id = 0 ∧
    ((saveToCsv 2024 ⟨["H1".data], ["B1".data], ["D1".data], ["U1".data], 0⟩ []).2).id =
      (["H1".data] : List Str).length ∧
    (saveToCsv 2024 { (saveToCsv 2024 ⟨["H1".data], ["B1".data], ["D1".data], ["U1".data], 0⟩
        []).2 with
        headlines := ["H2".data], authors := ["B2".data], dates := ["D2".data],
        urls := ["U2".data] } []).1 =
      csvHeader ++ ((List.range (["H2".data] : List Str).length).map fun i =>
        csvLine ((["H1".data] : List Str).length + i + 1)
          ((["U2".data] : List Str).getD i ("undefined".data))
          ((["H2".data] : List Str).getD i ("undefined".data))
          ((["B2".data] : List Str).getD i ("undefined".data))
          (dateFormatConversion ((["D2".data] : List Str).getD i ("undefined".data))
            2024)).flatten := by
  have h := claim10_id_never_reset ["H1".data] ["B1".data] ["D1".data] ["U1".data]
    ["H2".data] ["B2".data] ["D2".data] ["U2".data] 2024 2024 [] [] rfl rfl rfl
  exact ⟨rfl, rfl, rfl, h.1, h.2.1, h.2.2⟩

/-! ## The round trip through the CSV file -/

lemma getD_mem {α : Type} {l : List α} {i : Nat} {d : α} (h : i < l.length) :
    l.getD i d ∈ l := by
  rw [List.getD_eq_getElem l d h]
  exact List.getElem_mem h

/-- Trimming preserves an `http` prefix (and hence non-emptiness): the
leading `h` stops the left trim and the right trim can at most expose the
prefix itself. -/
lemma jsTrim_http {u : Str} (h : ("http").data.isPrefixOf u = true) :
    ("http").data.isPrefixOf (jsTrim u) = true ∧ jsTrim u ≠ [] := by
  obtain ⟨r, rfl⟩ := List.isPrefixOf_iff_prefix.mp h
  have hTL : trimL (("http").data ++ r) = ("http").data ++ r := by
    have hcons : ("http").data ++ r = 'h' :: (("ttp").data ++ r) := rfl
    rw [hcons, trimL, List.dropWhile_cons_of_neg (by decide)]
  rw [jsTrim, hTL, trimR, List.reverse_append]
  rcases hcase : List.dropWhile isJsSpace r.reverse with _ | ⟨c, t⟩
  · have he : trimL (r.reverse ++ ("http").data.reverse) = ("http").data.reverse := by
      rw [trimL, List.dropWhile_append, hcase]
      decide
    rw [he, List.reverse_reverse]
    exact ⟨by decide, by decide⟩
  · have he : trimL (r.reverse ++ ("http").data.reverse) = (c :: t) ++ ("http").data.reverse := by
      rw [trimL, List.dropWhile_append, hcase]
      rfl
    rw [he, List.reverse_append, List.reverse_reverse]
    refine ⟨List.isPrefixOf_iff_prefix.mpr (List.prefix_append _ _), fun hC => ?_⟩
    exact absurd (List.append_eq_nil.mp hC).1 (by decide)

/-- Reading the whole file back: under the field restrictions that keep the
line discipline intact, the checker's parse recovers one row of trimmed
fields per record. -/
lemma parseCsv_saveToCsv (hls als dls uls : List Str) (y : Int) (k : Nat) (fs : Str)
    (hla : als.length = hls.length) (hld : dls.length = hls.length)
    (hlu : uls.length = hls.length)
    (hhfree : ∀ f ∈ hls, '\n' ∉ f) (hafree : ∀ f ∈ als, '\n' ∉ f)
    (hufree : ∀ f ∈ uls, '\n' ∉ f) :
    parseCsv ((saveToCsv y ⟨hls, als, dls, uls, k⟩ fs).1) =
      (List.range hls.length).map fun i =>
        (splitCh '|' (jsTrim (csvLineBody (k + i + 1) (uls.getD i ("undefined".data))
          (hls.getD i ("undefined".data)) (als.getD i ("undefined".data))
          (dateFormatConversion (dls.getD i ("undefined".data)) y)))).map jsTrim := by
  rw [saveToCsv_content]
  have hbodies : csvDataLines y ⟨hls, als, dls, uls, k⟩ =
      ((List.range hls.length).map fun i =>
        csvLineBody (k + i + 1) (uls.getD i ("undefined".data))
          (hls.getD i ("undefined".data)) (als.getD i ("undefined".data))
          (dateFormatConversion (dls.getD i ("undefined".data)) y)).map
        (fun l => l ++ ['\n']) := by
    unfold csvDataLines csvLine
    rw [List.map_map]
    rfl
  have hnonl : ∀ l ∈ ((List.range hls.length).map fun i =>
      csvLineBody (k + i + 1) (uls.getD i ("undefined".data))
        (hls.getD i ("undefined".data)) (als.getD i ("undefined".data))
        (dateFormatConversion (dls.getD i ("undefined".data)) y)), '\n' ∉ l := by
    intro l hl
    obtain ⟨i, hir, rfl⟩ := List.mem_map.mp hl
    rw [List.mem_range] at hir
    refine csvLineBody_no_newline ?_ ?_ ?_ ?_
    · exact hufree _ (getD_mem (by omega))
    · exact hhfree _ (getD_mem (by omega))
    · exact hafree _ (getD_mem (by omega))
    · intro hc
      exact absurd rfl ((dfc_chars _ _).2 _ hc).2.2
  have hsplit : splitCh '\n' (csvHeader ++
      (csvDataLines y ⟨hls, als, dls, uls, k⟩).flatten) =
      csvHeaderLine :: (((List.range hls.length).map fun i =>
        csvLineBody (k + i + 1) (uls.getD i ("undefined".data))
          (hls.getD i ("undefined".data)) (als.getD i ("undefined".data))
          (dateFormatConversion (dls.getD i ("undefined".data)) y)) ++ [[]]) := by
    have hh : csvHeader ++ (csvDataLines y ⟨hls, als, dls, uls, k⟩).flatten =
        csvHeaderLine ++ '\n' :: (csvDataLines y ⟨hls, als, dls, uls, k⟩).flatten := by
      show (csvHeaderLine ++ ['\n']) ++ _ = _
      simp [List.append_assoc]
    rw [hh, splitCh_append _ (by decide), hbodies, splitCh_newline_flatten hnonl]
  unfold parseCsv
  rw [hsplit]
  simp only [List.drop_succ_cons, List.drop_zero, List.dropLast_concat, List.map_map]
  rfl

/-- Claim C8 (amended): writing a batch whose free-text fields contain no
pipe and no newline, whose raw dates are parseable, whose urls start with
"http" and whose authors do not trim to nothing, then parsing the file back,
yields exactly one row of five non-empty trimmed fields per record, the
first parsing as an integer and the second starting with "http".  (The url
and author conditions are the amendment: without them the claim fails.) -/
theorem claim8_roundtrip (hls als dls uls : List Str) (y : Int) (k : Nat) (fs : Str)
    (hla : als.length = hls.length) (hld : dls.length = hls.length)
    (hlu : uls.length = hls.length)
    (hhfree : ∀ f ∈ hls, '\n' ∉ f ∧ '|' ∉ f)
    (hafree : ∀ f ∈ als, '\n' ∉ f ∧ '|' ∉ f)
    (hufree : ∀ f ∈ uls, '\n' ∉ f ∧ '|' ∉ f)
    (_hpars : ∀ r ∈ dls, (getMonthIndex r).isSome = true ∧ (getDate r).isSome = true)
    (hhttp : ∀ f ∈ uls, ("http").data.isPrefixOf f = true)
    (hane : ∀ f ∈ als, jsTrim f ≠ []) :
    (parseCsv ((saveToCsv y ⟨hls, als, dls, uls, k⟩ fs).1)).length = hls.length ∧
    ∀ r ∈ parseCsv ((saveToCsv y ⟨hls, als, dls, uls, k⟩ fs).1),
      r.length = 5 ∧ (∀ f ∈ r, f ≠ []) ∧
      (jsParseInt (r.getD 0 [])).isSome = true ∧
      ("http").data.isPrefixOf (r.getD 1 []) = true := by
  rw [parseCsv_saveToCsv hls als dls uls y k fs hla hld hlu
    (fun f hf => (hhfree f hf).1) (fun f hf => (hafree f hf).1)
    (fun f hf => (hufree f hf).1)]
  constructor
  · simp
  · intro r hr
    obtain ⟨i, hir, hri⟩ := List.mem_map.mp hr
    rw [List.mem_range] at hir
    have hu := hufree _ (getD_mem (i := i) (d := ("undefined").data) (by omega))
    have hh := hhfree _ (getD_mem (i := i) (d := ("undefined").data) (by omega))
    have ha := hafree _ (getD_mem (i := i) (d := ("undefined").data) (by omega))
    have hau := hane _ (getD_mem (i := i) (d := ("undefined").data) (by omega))
    have hup := hhttp _ (getD_mem (i := i) (d := ("undefined").data) (by omega))
    have hdc := dfc_chars (dls.getD i ("undefined".data)) y
    have hrow := parse_csvLineBody (k + i + 1) (uls.getD i ("undefined".data))
      (hls.getD i ("undefined".data)) (als.getD i ("undefined".data))
      (dateFormatConversion (dls.getD i ("undefined".data)) y)
      hu.2 hh.2 ha.2 hdc.1 hdc.2
    rw [hrow] at hri
    subst hri
    have htr := jsTrim_http hup
    refine ⟨rfl, ?_, ?_, htr.1⟩
    · intro f hf
      simp only [List.mem_cons, List.not_mem_nil, or_false] at hf
      rcases hf with rfl | rfl | rfl | rfl | rfl
      · exact natToChars_ne_nil _
      · exact htr.2
      · simp
      · exact hau
      · exact hdc.1
    · rw [show ([natToChars (k + i + 1), jsTrim (uls.getD i ("undefined".data)),
          '"' :: (hls.getD i ("undefined".data) ++ ['"']),
          jsTrim (als.getD i ("undefined".data)),
          dateFormatConversion (dls.getD i ("undefined".data)) y].getD 0 []) =
          natToChars (k + i + 1) from rfl, jsParseInt_natToChars]
      rfl

/-- Counterexample for C8 as stated: a batch with an empty author and a url
not starting with "http" satisfies the claim's hypotheses (no separator or
newline in any field, parseable date) but the parsed-back row has an empty
fourth field and a second field without the http prefix. -/
theorem claim8_counterexample :
    ¬ ∀ r ∈ parseCsv ((saveToCsv 2024
        ⟨["A".data], [[]], ["Jan 5".data], ["zzz".data], 0⟩ []).1),
      (∀ f ∈ r, f ≠ []) ∧ ("http").data.isPrefixOf (r.getD 1 []) = true := by decide

/-- Witness for the amended C8 on a well-formed one-record batch. -/
theorem claim8_witness :
    (∀ f ∈ (["Alpha".data] : List Str), '\n' ∉ f ∧ '|' ∉ f) ∧
    (∀ f ∈ (["Bob".data] : List Str), '\n' ∉ f ∧ '|' ∉ f) ∧
    (∀ f ∈ (["https://x/1".data] : List Str), '\n' ∉ f ∧ '|' ∉ f) ∧
    (∀ r ∈ (["Jan 5".data] : List Str),
      (getMonthIndex r).isSome = true ∧ (getDate r).isSome = true) ∧
    (∀ f ∈ (["https://x/1".data] : List Str), ("http").data.isPrefixOf f = true) ∧
    (∀ f ∈ (["Bob".data] : List Str), jsTrim f ≠ []) ∧
    ((parseCsv ((saveToCsv 2024
        ⟨["Alpha".data], ["Bob".data], ["Jan 5".data], ["https://x/1".data], 0⟩ []).1)).length =
      (["Alpha".data] : List Str).length ∧
    ∀ r ∈ parseCsv ((saveToCsv 2024
        ⟨["Alpha".data], ["Bob".data], ["Jan 5".data], ["https://x/1".data], 0⟩ []).1),
      r.length = 5 ∧ (∀ f ∈ r, f ≠ []) ∧
      (jsParseInt (r.getD 0 [])).isSome = true ∧
      ("http").data.isPrefixOf (r.getD 1 []) = true) :=
  ⟨by decide, by decide, by decide, by decide, by decide, by decide,
    claim8_roundtrip ["Alpha".data] ["Bob".data] ["Jan 5".data] ["https://x/1".data] 2024 0 []
      rfl rfl rfl (by decide) (by decide) (by decide) (by decide) (by decide) (by decide)⟩

/-! ## The verification pass: membership characterizations -/

lemma mem_ite_singleton {c : Prop} [Decidable c] {r x : Report} :
    (r ∈ if c then [x] else []) ↔ c ∧ r = x := by
  split <;> simp_all

lemma fieldCount_mem_checkLine {i i' : Nat} {l : Str} :
    Report.fieldCount i ∈ checkLine i' l ↔
      i = i' ∧ ((splitCh '|' (jsTrim l)).map jsTrim).length ≠ 5 := by
  simp only [checkLine]
  split
  · rename_i hlen
    have hlen2 : ¬ (splitCh '|' (jsTrim l)).length = 5 := by simpa using hlen
    simp [hlen2]
  · rename_i hlen
    have hlen5 := not_ne_iff.mp hlen
    simp [List.mem_append, mem_ite_singleton, hlen5]

lemma invalidId_mem_checkLine {i i' : Nat} {l : Str} :
    Report.invalidId i ∈ checkLine i' l ↔
      i = i' ∧ ((splitCh '|' (jsTrim l)).map jsTrim).length = 5 ∧
        (jsParseInt (((splitCh '|' (jsTrim l)).map jsTrim).getD 0 [])).isNone = true := by
  simp only [checkLine]
  split
  · rename_i hlen
    have hlen2 : ¬ (splitCh '|' (jsTrim l)).length = 5 := by simpa using hlen
    simp [hlen2]
  · rename_i hlen
    have hlen5 := not_ne_iff.mp hlen
    simp [List.mem_append, mem_ite_singleton, hlen5]
    tauto

lemma invalidUrl_mem_checkLine {i i' : Nat} {l : Str} :
    Report.invalidUrl i ∈ checkLine i' l ↔
      i = i' ∧ ((splitCh '|' (jsTrim l)).map jsTrim).length = 5 ∧
        ¬ ("http").data.isPrefixOf (((splitCh '|' (jsTrim l)).map jsTrim).getD 1 []) = true := by
  simp only [checkLine]
  split
  · rename_i hlen
    have hlen2 : ¬ (splitCh '|' (jsTrim l)).length = 5 := by simpa using hlen
    simp [hlen2]
  · rename_i hlen
    have hlen5 := not_ne_iff.mp hlen
    simp [List.mem_append, mem_ite_singleton, hlen5]
    tauto

lemma emptyHeadline_mem_checkLine {i i' : Nat} {l : Str} :
    Report.emptyHeadline i ∈ checkLine i' l ↔
      i = i' ∧ ((splitCh '|' (jsTrim l)).map jsTrim).length = 5 ∧
        ((splitCh '|' (jsTrim l)).map jsTrim).getD 2 [] = [] := by
  simp only [checkLine]
  split
  · rename_i hlen
    have hlen2 : ¬ (splitCh '|' (jsTrim l)).length = 5 := by simpa using hlen
    simp [hlen2]
  · rename_i hlen
    have hlen5 := not_ne_iff.mp hlen
    simp [List.mem_append, mem_ite_singleton, hlen5]
    tauto

lemma emptyAuthor_mem_checkLine {i i' : Nat} {l : Str} :
    Report.emptyAuthor i ∈ checkLine i' l ↔
      i = i' ∧ ((splitCh '|' (jsTrim l)).map jsTrim).length = 5 ∧
        ((splitCh '|' (jsTrim l)).map jsTrim).getD 3 [] = [] := by
  simp only [checkLine]
  split
  · rename_i hlen
    have hlen2 : ¬ (splitCh '|' (jsTrim l)).length = 5 := by simpa using hlen
    simp [hlen2]
  · rename_i hlen
    have hlen5 := not_ne_iff.mp hlen
    simp [List.mem_append, mem_ite_singleton, hlen5]
    tauto

lemma emptyDate_mem_checkLine {i i' : Nat} {l : Str} :
    Report.emptyDate i ∈ checkLine i' l ↔
      i = i' ∧ ((splitCh '|' (jsTrim l)).map jsTrim).length = 5 ∧
        ((splitCh '|' (jsTrim l)).map jsTrim).getD 4 [] = [] := by
  simp only [checkLine]
  split
  · rename_i hlen
    have hlen2 : ¬ (splitCh '|' (jsTrim l)).length = 5 := by simpa using hlen
    simp [hlen2]
  · rename_i hlen
    have hlen5 := not_ne_iff.mp hlen
    simp [List.mem_append, mem_ite_singleton, hlen5]
    tauto

lemma countMismatch_not_mem_checkLine (i : Nat) (l : Str) (c e : Nat) :
    Report.countMismatch c e ∉ checkLine i l := by
  simp only [checkLine]
  split <;> simp [mem_ite_singleton]

/-- With a correct header the verification pass is the concatenation of the
per-line check results and the final count comparison. -/
lemma runVerification_eq (content : Str) (dbc bs : Nat)
    (hheader : jsTrim ((splitCh '\n' content).getD 0 []) = csvHeaderLine) :
    runVerification content dbc bs =
      ((List.range ((splitCh '\n' content).length - 1 - 1)).map
        (fun kk => checkLine (kk + 1) ((splitCh '\n' content).getD (kk + 1) []))).flatten ++
      (if dbc ≠ bs then [.countMismatch dbc bs] else [.allPassed]) := by
  unfold runVerification
  rw [if_neg (not_ne_iff.mpr hheader)]

/-- A line-tagged report is in the verification output exactly when the
corresponding line check emits it. -/
lemma mem_runVerification_line (content : Str) (dbc bs : Nat)
    (hheader : jsTrim ((splitCh '\n' content).getD 0 []) = csvHeaderLine)
    {r : Report} {j : Nat} (hj1 : 1 ≤ j)
    (hj2 : j < (splitCh '\n' content).length - 1)
    (htag : ∀ i' l, r ∈ checkLine i' l → i' = j)
    (hnc : ∀ c e, r ≠ .countMismatch c e) (hna : r ≠ .allPassed) :
    (r ∈ runVerification content dbc bs ↔
      r ∈ checkLine j ((splitCh '\n' content).getD j [])) := by
  rw [runVerification_eq content dbc bs hheader, List.mem_append]
  constructor
  · rintro (hmem | hmem)
    · rw [List.mem_flatten] at hmem
      obtain ⟨lr, hlr, hrlr⟩ := hmem
      obtain ⟨kk, hkk, rfl⟩ := List.mem_map.mp hlr
      have hkj := htag _ _ hrlr
      rw [hkj] at hrlr
      exact hrlr
    · split at hmem
      · exact absurd (List.mem_singleton.mp hmem) (hnc dbc bs)
      · exact absurd (List.mem_singleton.mp hmem) hna
  · intro hmem
    refine Or.inl (List.mem_flatten.mpr
      ⟨checkLine j ((splitCh '\n' content).getD j []), ?_, hmem⟩)
    refine List.mem_map.mpr ⟨j - 1, List.mem_range.mpr (by omega), ?_⟩
    have hj : j - 1 + 1 = j := by omega
    rw [hj]

/-- Claim C9 (amended): with a correct header, each per-line check of a
5-field line reports independently of the others (and the count check
independently of all of them); the field-count check gates only that line's
field checks.  The header check, however, short-circuits the whole pass,
which is why the claim as stated is corrected. -/
theorem claim9_checker_independence (content : Str) (dbc bs j : Nat)
    (hheader : jsTrim ((splitCh '\n' content).getD 0 []) = csvHeaderLine)
    (hj1 : 1 ≤ j) (hj2 : j < (splitCh '\n' content).length - 1) :
    (Report.fieldCount j ∈ runVerification content dbc bs ↔
      (lineFields content j).length ≠ 5) ∧
    ((lineFields content j).length = 5 →
      ((Report.invalidId j ∈ runVerification content dbc bs ↔
        (jsParseInt ((lineFields content j).getD 0 [])).isNone = true) ∧
       (Report.invalidUrl j ∈ runVerification content dbc bs ↔
        ¬ ("http").data.isPrefixOf ((lineFields content j).getD 1 []) = true) ∧
       (Report.emptyHeadline j ∈ runVerification content dbc bs ↔
        (lineFields content j).getD 2 [] = []) ∧
       (Report.emptyAuthor j ∈ runVerification content dbc bs ↔
        (lineFields content j).getD 3 [] = []) ∧
       (Report.emptyDate j ∈ runVerification content dbc bs ↔
        (lineFields content j).getD 4 [] = []))) ∧
    (Report.countMismatch dbc bs ∈ runVerification content dbc bs ↔ dbc ≠ bs) := by
  refine ⟨?_, fun h5 => ⟨?_, ?_, ?_, ?_, ?_⟩, ?_⟩
  · rw [mem_runVerification_line content dbc bs hheader hj1 hj2
      (fun i' l hm => (fieldCount_mem_checkLine.mp hm).1.symm)
      (fun c e h => Report.noConfusion h) (fun h => Report.noConfusion h),
      fieldCount_mem_checkLine]
    unfold lineFields
    simp
  · rw [mem_runVerification_line content dbc bs hheader hj1 hj2
      (fun i' l hm => (invalidId_mem_checkLine.mp hm).1.symm)
      (fun c e h => Report.noConfusion h) (fun h => Report.noConfusion h),
      invalidId_mem_checkLine]
    unfold lineFields at h5 ⊢
    simp [h5]
    intro _
    simpa using h5
  · rw [mem_runVerification_line content dbc bs hheader hj1 hj2
      (fun i' l hm => (invalidUrl_mem_checkLine.mp hm).1.symm)
      (fun c e h => Report.noConfusion h) (fun h => Report.noConfusion h),
      invalidUrl_mem_checkLine]
    unfold lineFields at h5 ⊢
    simp [h5]
    intro _
    simpa using h5
  · rw [mem_runVerification_line content dbc bs hheader hj1 hj2
      (fun i' l hm => (emptyHeadline_mem_checkLine.mp hm).1.symm)
      (fun c e h => Report.noConfusion h) (fun h => Report.noConfusion h),
      emptyHeadline_mem_checkLine]
    unfold lineFields at h5 ⊢
    simp [h5]
    intro _
    simpa using h5
  · rw [mem_runVerification_line content dbc bs hheader hj1 hj2
      (fun i' l hm => (emptyAuthor_mem_checkLine.mp hm).1.symm)
      (fun c e h => Report.noConfusion h) (fun h => Report.noConfusion h),
      emptyAuthor_mem_checkLine]
    unfold lineFields at h5 ⊢
    simp [h5]
    intro _
    simpa using h5
  · rw [mem_runVerification_line content dbc bs hheader hj1 hj2
      (fun i' l hm => (emptyDate_mem_checkLine.mp hm).1.symm)
      (fun c e h => Report.noConfusion h) (fun h => Report.noConfusion h),
      emptyDate_mem_checkLine]
    unfold lineFields at h5 ⊢
    simp [h5]
    intro _
    simpa using h5
  · rw [runVerification_eq content dbc bs hheader, List.mem_append]
    constructor
    · rintro (hmem | hmem)
      · rw [List.mem_flatten] at hmem
        obtain ⟨lr, hlr, hrlr⟩ := hmem
        obtain ⟨kk, _, rfl⟩ := List.mem_map.mp hlr
        exact absurd hrlr (countMismatch_not_mem_checkLine _ _ _ _)
      · split at hmem
        · assumption
        · exact absurd (List.mem_singleton.mp hmem) (fun h => Report.noConfusion h)
    · intro hne
      exact Or.inr (by rw [if_pos hne]; exact List.mem_singleton.mpr rfl)

/-- Counterexample for C9 as stated: on a file with a wrong header, the
checker returns after the header report, so the url violation on the data
line is never reported. -/
theorem claim9_counterexample :
    runVerification (("bad\n1 | zzz | \"h\" | a | d\n").data) 1 1 = [Report.headerMismatch] ∧
    Report.invalidUrl 1 ∉ runVerification (("bad\n1 | zzz | \"h\" | a | d\n").data) 1 1 ∧
    ¬ ("http").data.isPrefixOf
      ((lineFields (("bad\n1 | zzz | \"h\" | a | d\n").data) 1).getD 1 []) = true := by decide

/-- Witness for the amended C9 on a sample file with a correct header and
an http violation on its only data line. -/
theorem claim9_witness :
    jsTrim ((splitCh '\n' sampleCheckerContent).getD 0 []) = csvHeaderLine ∧
    1 ≤ 1 ∧ 1 < (splitCh '\n' sampleCheckerContent).length - 1 ∧
    ((Report.fieldCount 1 ∈ runVerification sampleCheckerContent 1 1 ↔
      (lineFields sampleCheckerContent 1).length ≠ 5) ∧
    ((lineFields sampleCheckerContent 1).length = 5 →
      ((Report.invalidId 1 ∈ runVerification sampleCheckerContent 1 1 ↔
        (jsParseInt ((lineFields sampleCheckerContent 1).getD 0 [])).isNone = true) ∧
       (Report.invalidUrl 1 ∈ runVerification sampleCheckerContent 1 1 ↔
        ¬ ("http").data.isPrefixOf ((lineFields sampleCheckerContent 1).getD 1 []) = true) ∧
       (Report.emptyHeadline 1 ∈ runVerification sampleCheckerContent 1 1 ↔
        (lineFields sampleCheckerContent 1).getD 2 [] = []) ∧
       (Report.emptyAuthor 1 ∈ runVerification sampleCheckerContent 1 1 ↔
        (lineFields sampleCheckerContent 1).getD 3 [] = []) ∧
       (Report.emptyDate 1 ∈ runVerification sampleCheckerContent 1 1 ↔
        (lineFields sampleCheckerContent 1).getD 4 [] = []))) ∧
    (Report.countMismatch 1 1 ∈ runVerification sampleCheckerContent 1 1 ↔ 1 ≠ 1)) :=
  ⟨by decide, by decide, by decide,
    claim9_checker_independence sampleCheckerContent 1 1 1 (by decide) (by decide) (by decide)⟩
